import Mathlib

/-!
# Full-Stack: catalog service, card store and bearer-token gate

A shallow embedding of the three Express services of the repository
(`app.js`, `Exp11.js`, `Exp-16.js`) together with the properties their
route handlers satisfy.

Conventions of the embedding.

* A JavaScript value that reaches a handler through a JSON body is a `JsVal`.
  Numbers are `JsNum`: the exact value of the double (a rational), the two
  infinities, or NaN.  Order comparisons of doubles agree with the order of
  their exact values, so nothing is rounded in the model.
* An `await`ed store call is explicit: a handler is either an immediate
  response or one store call together with the continuation that turns the
  outcome of the call (a value, or a thrown error) into the response.
* Builtins of the JavaScript runtime whose full definition lives outside the
  repository (`String.prototype.toLowerCase`, `parseInt`, `ToNumber` on
  strings and objects) are parameters of the handlers that use them.
-/

set_option autoImplicit false

namespace FullStack

/-! ## JavaScript values -/

/-- A JavaScript number: NaN, an infinity, or a finite value given exactly. -/
inductive JsNum where
  | nan
  | negInf
  | posInf
  | fin (q : ℚ)
  deriving DecidableEq

namespace JsNum

/-- The number written as an integer literal in the source. -/
def ofNat (n : Nat) : JsNum := .fin n

/-- The `<` operator on two numbers (false as soon as one side is NaN). -/
def lt : JsNum → JsNum → Bool
  | .nan, _ => false
  | _, .nan => false
  | .negInf, .negInf => false
  | .negInf, _ => true
  | _, .negInf => false
  | .posInf, _ => false
  | .fin _, .posInf => true
  | .fin a, .fin b => decide (a < b)

/-- Coercion `ToBoolean` on a number: zero and NaN are falsy. -/
def truthy : JsNum → Bool
  | .nan => false
  | .fin q => decide (q ≠ 0)
  | _ => true

end JsNum

/-- A value parsed from a JSON body, or `undefined` for a property that is not there. -/
inductive JsVal where
  | undefined
  | null
  | bool (b : Bool)
  | num (n : JsNum)
  | str (s : String)
  | arr (xs : List JsVal)
  | obj (fs : List (String × JsVal))

/-- Length of a string as `.length` reports it: UTF-16 code units. -/
def jsLength (s : String) : Nat :=
  (s.data.map (fun c => if c.toNat < 65536 then 1 else 2)).sum

/-- Property lookup on a parsed JSON object, given as the list of its
properties (a JavaScript object holds each key once); a missing key reads as
`undefined`. -/
def getProp : List (String × JsVal) → String → JsVal
  | [], _ => .undefined
  | (k, v) :: rest, key => if k = key then v else getProp rest key

/-- A key is present in a parsed JSON object. -/
def hasProp (fs : List (String × JsVal)) (key : String) : Bool :=
  fs.any (fun kv => decide (kv.1 = key))

namespace JsVal

/-- Coercion `ToBoolean`: the value counts as true in `!v`, `v || w`, `if (v)`. -/
def truthy : JsVal → Bool
  | .undefined => false
  | .null => false
  | .bool b => b
  | .num n => n.truthy
  | .str s => decide (s ≠ "")
  | .arr _ => true
  | .obj _ => true

/-- The expression `v.length` for a truthy `v`. -/
def length : JsVal → JsVal
  | .str s => .num (.ofNat (jsLength s))
  | .arr xs => .num (.ofNat xs.length)
  | .obj fs => getProp fs "length"
  | _ => .undefined

/-- Coercion `ToNumber`. The conversion of strings, arrays and objects is the runtime's
numeric-literal parser, taken as the parameter `coerce`. -/
def toNumber (coerce : JsVal → JsNum) : JsVal → JsNum
  | .undefined => .nan
  | .null => .ofNat 0
  | .bool b => if b then .ofNat 1 else .ofNat 0
  | .num n => n
  | v => coerce v

/-- The test `v < n` against a number literal `n`. -/
def ltNum (coerce : JsVal → JsNum) (v : JsVal) (n : Nat) : Bool :=
  (v.toNumber coerce).lt (.ofNat n)

/-- The test `v === undefined`. -/
def isUndefined : JsVal → Bool
  | .undefined => true
  | _ => false

end JsVal

/-! ## Catalog service (`app.js`): data -/

/-- A variant sub-document. -/
structure Variant where
  color : String
  size : String
  stock : ℚ
  _id : String
  deriving DecidableEq

/-- A product document, as held in `sampleProducts` and as returned by the store. -/
structure Product where
  _id : String
  name : String
  price : ℚ
  category : String
  variants : List Variant
  deriving DecidableEq

/-- The literal `sampleProducts` array. -/
def sampleProducts : List Product :=
  [ { _id := "686f63eb90ac2728b3f11082", name := "Smartphone", price := 699,
      category := "Electronics", variants := [] },
    { _id := "686f68ed2bf5384209b236af", name := "Running Shoes", price := 120,
      category := "Footwear",
      variants :=
        [ { color := "Red", size := "M", stock := 10, _id := "686f68ed2bf5384209b236b0" },
          { color := "Blue", size := "L", stock := 5, _id := "686f68ed2bf5384209b236b1" } ] },
    { _id := "686f68ed2bf5384209b236b2", name := "Winter Jacket", price := 260,
      category := "Apparel",
      variants :=
        [ { color := "Black", size := "S", stock := 8, _id := "686f68ed2bf5384209b236b3" },
          { color := "Gray", size := "M", stock := 12, _id := "686f68ed2bf5384209b236b4" } ] },
    { _id := "686f68ed2bf5384209b236b5", name := "Gaming Laptop", price := 1299,
      category := "Electronics",
      variants :=
        [ { color := "Black", size := "15-inch", stock := 3, _id := "686f68ed2bf5384209b236b6" },
          { color := "Silver", size := "17-inch", stock := 7, _id := "686f68ed2bf5384209b236b7" } ] } ]

/-! ## Catalog service: store calls, responses, handlers -/

/-- An error thrown by a store call. -/
structure StoreError where
  name : String
  message : String
  deriving DecidableEq

/-- Query filters passed to `Product.find`. -/
inductive Filter where
  | all
  | category (c : String)
  | variantColor (c : String)
  deriving DecidableEq

/-- Update documents passed to `Product.findByIdAndUpdate`. -/
inductive Update where
  | body (fs : List (String × JsVal))
  | pushVariant (color size : JsVal) (stock : JsNum)

/-- The options object of `findByIdAndUpdate`. -/
structure UpdateOptions where
  new : Bool
  runValidators : Bool
  deriving DecidableEq

/-- The argument of `new Product(...)`. -/
structure Draft where
  name : JsVal
  price : JsVal
  category : JsVal
  variants : JsVal

/-- The summary object answered by `GET /`. The outer `catch` of the handler
answers the four-field form, with the last two fields left out. -/
structure Summary where
  message : String
  status : String
  database : String
  totalProducts : Nat
  featuredEndpoints : Option (List (String × String))
  examplePayload : Option String
  deriving DecidableEq

/-- JSON payloads the handlers send. -/
inductive Payload where
  | products (ps : List Product)
  | product (p : Product)
  | error (msg : String)
  | deleted (msg : String) (p : Product)
  | summary (s : Summary)
  deriving DecidableEq

/-- An HTTP response: status code and JSON payload. -/
structure Response where
  status : Nat
  payload : Payload
  deriving DecidableEq

/-- Outcome of an awaited store call: the resolved value or the thrown error. -/
abbrev Outcome (α : Type) := Except StoreError α

/-- A route handler run up to its single `await`: an immediate response, or a
store call with the code that follows it. -/
inductive Handler where
  | respond (r : Response)
  | find (f : Filter) (k : Outcome (List Product) → Response)
  | findById (id : String) (k : Outcome (Option Product) → Response)
  | save (d : Draft) (k : Outcome Product → Response)
  | findByIdAndUpdate (id : String) (u : Update) (o : UpdateOptions)
      (k : Outcome (Option Product) → Response)
  | findByIdAndDelete (id : String) (k : Outcome (Option Product) → Response)

/-- The backing store, as the handlers see it. -/
structure Store where
  find : Filter → Outcome (List Product)
  findById : String → Outcome (Option Product)
  save : Draft → Outcome Product
  findByIdAndUpdate : String → Update → UpdateOptions → Outcome (Option Product)
  findByIdAndDelete : String → Outcome (Option Product)

namespace Handler

/-- Run a handler to its response against a store. -/
def run (st : Store) : Handler → Response
  | .respond r => r
  | .find f k => k (st.find f)
  | .findById id k => k (st.findById id)
  | .save d k => k (st.save d)
  | .findByIdAndUpdate id u o k => k (st.findByIdAndUpdate id u o)
  | .findByIdAndDelete id k => k (st.findByIdAndDelete id)

/-- The handler calls `save` on a document. -/
def callsSave : Handler → Bool
  | .save _ _ => true
  | _ => false

/-- The handler answers without any store call. -/
def immediate : Handler → Option Response
  | .respond r => some r
  | _ => none

end Handler

/-- Call `res.json(x)`: status 200. -/
def json (p : Payload) : Response := ⟨200, p⟩

/-- Handler `app.get("/products")`. -/
def getProducts : Handler :=
  .find .all fun
    | .ok products => json (.products products)
    | .error _ => json (.products sampleProducts)

/-- Handler `app.get("/products/category/:category")`. -/
def getByCategory (toLowerCase : String → String) (category : String) : Handler :=
  .find (.category category) fun
    | .ok products => json (.products products)
    | .error _ =>
        json (.products
          (sampleProducts.filter fun p =>
            decide (toLowerCase p.category = toLowerCase category)))

/-- Handler `app.get("/products/by-color/:color")`. -/
def getByColor (toLowerCase : String → String) (color : String) : Handler :=
  .find (.variantColor color) fun
    | .ok products => json (.products products)
    | .error _ =>
        json (.products
          (sampleProducts.filter fun p =>
            p.variants.any fun v => decide (toLowerCase v.color = toLowerCase color)))

/-- Handler `app.get("/products/:id")`. -/
def getProduct (id : String) : Handler :=
  .findById id fun
    | .ok (some product) => json (.product product)
    | .ok none => ⟨404, .error "Product not found"⟩
    | .error _ => ⟨400, .error "Invalid product ID"⟩

/-- Handler `app.post("/products")`. -/
def postProduct (coerce : JsVal → JsNum) (body : List (String × JsVal)) : Handler :=
  let name := getProp body "name"
  let price := getProp body "price"
  let category := getProp body "category"
  let variants := getProp body "variants"
  if !name.truthy || name.length.ltNum coerce 2 then
    .respond ⟨400, .error "Name is required and must be at least 2 characters"⟩
  else if !price.truthy || price.ltNum coerce 1 then
    .respond ⟨400, .error "Price must be at least 1"⟩
  else if !category.truthy then
    .respond ⟨400, .error "Category is required"⟩
  else
    .save ⟨name, price, category, if variants.truthy then variants else .arr []⟩ fun
      | .ok saved => ⟨201, .product saved⟩
      | .error err => ⟨400, .error err.message⟩

/-- Handler `app.post("/products/:id/variants")`. -/
def postVariant (coerce : JsVal → JsNum) (id : String) (body : List (String × JsVal)) :
    Handler :=
  let color := getProp body "color"
  let size := getProp body "size"
  let stock := getProp body "stock"
  if !color.truthy || !size.truthy || stock.isUndefined then
    .respond ⟨400, .error "Color, size, and stock are required"⟩
  else
    .findByIdAndUpdate id (.pushVariant color size (stock.toNumber coerce)) ⟨true, false⟩ fun
      | .ok (some product) => json (.product product)
      | .ok none => ⟨404, .error "Product not found"⟩
      | .error err => ⟨400, .error err.message⟩

/-- Handler `app.put("/products/:id")`. -/
def putProduct (id : String) (body : List (String × JsVal)) : Handler :=
  .findByIdAndUpdate id (.body body) ⟨true, true⟩ fun
    | .ok (some product) => json (.product product)
    | .ok none => ⟨404, .error "Product not found"⟩
    | .error err => ⟨400, .error err.message⟩

/-- Handler `app.delete("/products/:id")`. -/
def deleteProduct (id : String) : Handler :=
  .findByIdAndDelete id fun
    | .ok (some product) => json (.deleted "Product deleted" product)
    | .ok none => ⟨404, .error "Product not found"⟩
    | .error err => ⟨500, .error err.message⟩

/-- The `featuredEndpoints` object of the summary. -/
def featuredEndpoints : List (String × String) :=
  [ ("GET /products", "Get all products"),
    ("GET /products/category/Electronics", "Get products by category"),
    ("GET /products/by-color/Blue", "Get products by color variant"),
    ("POST /products", "Create new product"),
    ("POST /products/:id/variants", "Add variant to product") ]

/-- The `examplePayload` object of the summary, as the JSON text it serialises to. -/
def examplePayload : String :=
  "\x7b\"createProduct\":\x7b\"name\":\"Product Name\",\"price\":100,\"category\":\"Electronics\",\"variants\":[\x7b\"color\":\"Black\",\"size\":\"M\",\"stock\":10\x7d]\x7d,\"addVariant\":\x7b\"color\":\"Red\",\"size\":\"L\",\"stock\":5\x7d\x7d"

/-- Handler `app.get("/")`. `readyState` is `mongoose.connection.readyState` at the
time of the request. Nothing after the inner `try` can throw, so the outer
`catch` (the four-field summary with `sampleProducts.length`) is never entered. -/
def getRoot (readyState : Nat) : Handler :=
  .find .all fun r =>
    let products : List Product :=
      match r with
      | .ok found => if found.length = 0 then sampleProducts else found
      | .error _ => sampleProducts
    json (.summary
      { message := "🚀 E-commerce Catalog System is running!"
        status := "Server is active"
        database := if readyState = 1 then "Connected ✅" else "Disconnected ❌"
        totalProducts := products.length
        featuredEndpoints := some featuredEndpoints
        examplePayload := some examplePayload })

/-! ## Lower-casing of ASCII text -/

/-- Every character of the string is ASCII. -/
def IsAscii (s : String) : Prop := ∀ c ∈ s.data, c.toNat < 128

instance (s : String) : Decidable (IsAscii s) := by
  unfold IsAscii; infer_instance

/-- Lower-casing of the letters `A`-`Z`, every other character kept. -/
def asciiLower (s : String) : String := ⟨s.data.map Char.toLower⟩

/-- What the handlers rely on from `String.prototype.toLowerCase`: on ASCII
text it lower-cases `A`-`Z` and keeps everything else. -/
def LowersAscii (toLowerCase : String → String) : Prop :=
  ∀ s, IsAscii s → toLowerCase s = asciiLower s

/-- The fields of a variant the specification lists: colour, size, stock. -/
def Variant.view (v : Variant) : String × String × ℚ := (v.color, v.size, v.stock)

/-- The fields of a product the specification lists. -/
def Product.view (p : Product) : String × ℚ × String × List (String × String × ℚ) :=
  (p.name, p.price, p.category, p.variants.map Variant.view)

/-! ## Card store (`Exp11.js`) -/

/-- A card object of the in-memory `cards` array. -/
structure Card where
  id : Nat
  suit : JsVal
  value : JsVal

/-- The two module-level variables of `Exp11.js`. Ids are counted in exact
integers, as a JavaScript number does for every value below 2^53. -/
structure CardState where
  cards : List Card
  nextId : Nat

/-- The state the module starts in. -/
def initialCards : CardState where
  cards :=
    [ ⟨1, .str "Hearts", .str "Ace"⟩,
      ⟨2, .str "Spades", .str "King"⟩,
      ⟨3, .str "Diamonds", .str "Queen"⟩ ]
  nextId := 4

/-- JSON payloads of the card routes. -/
inductive CardPayload where
  | cards (cs : List Card)
  | card (c : Card)
  | message (m : String)

/-- Response of a card route. -/
structure CardReply where
  status : Nat
  payload : CardPayload

/-- Requests to the card routes; `:id` is the raw path segment. -/
inductive CardRequest where
  | list
  | get (idParam : String)
  | post (body : List (String × JsVal))
  | delete (idParam : String)

/-- The test `c.id === cardId`, where `cardId` is the result of `parseInt`:
an integer, or `none` when `parseInt` yields NaN, which is equal to no id. -/
def idMatches (cardId : Option Int) (c : Card) : Bool :=
  match cardId with
  | some k => decide ((c.id : Int) = k)
  | none => false

/-- Method `Array.prototype.findIndex`; `none` stands for `-1`. -/
def findIndex {α : Type} (p : α → Bool) : List α → Option Nat
  | [] => none
  | a :: rest => if p a then some 0 else (findIndex p rest).map (· + 1)

/-- Handler `app.get('/cards')`. -/
def getCards (s : CardState) : CardState × CardReply :=
  (s, ⟨200, .cards s.cards⟩)

/-- Handler `app.get('/cards/:id')`. -/
def getCard (parseInt : String → Option Int) (s : CardState) (idParam : String) :
    CardState × CardReply :=
  let cardId := parseInt idParam
  match s.cards.find? (idMatches cardId) with
  | some card => (s, ⟨200, .card card⟩)
  | none => (s, ⟨404, .message "Card not found"⟩)

/-- Handler `app.post('/cards')`. -/
def postCard (s : CardState) (body : List (String × JsVal)) : CardState × CardReply :=
  let suit := getProp body "suit"
  let value := getProp body "value"
  if !suit.truthy || !value.truthy then
    (s, ⟨400, .message "Suit and value are required."⟩)
  else
    let newCard : Card := ⟨s.nextId, suit, value⟩
    (⟨s.cards ++ [newCard], s.nextId + 1⟩, ⟨201, .card newCard⟩)

/-- Handler `app.delete('/cards/:id')`. -/
def deleteCard (parseInt : String → Option Int) (s : CardState) (idParam : String) :
    CardState × CardReply :=
  let cardId := parseInt idParam
  match findIndex (idMatches cardId) s.cards with
  | some cardIndex =>
      (⟨s.cards.eraseIdx cardIndex, s.nextId⟩, ⟨200, .message "Card deleted successfully"⟩)
  | none => (s, ⟨404, .message "Card not found"⟩)

/-- One request served by the card service. -/
def cardStep (parseInt : String → Option Int) (s : CardState) :
    CardRequest → CardState × CardReply
  | .list => getCards s
  | .get idParam => getCard parseInt s idParam
  | .post body => postCard s body
  | .delete idParam => deleteCard parseInt s idParam

/-- The state after serving a sequence of requests from the initial state. -/
def runCards (parseInt : String → Option Int) (reqs : List CardRequest) : CardState :=
  reqs.foldl (fun s r => (cardStep parseInt s r).1) initialCards

/-- The card-store invariant: ids pairwise distinct and all below `nextId`. -/
def CardInv (s : CardState) : Prop :=
  (s.cards.map Card.id).Nodup ∧ ∀ c ∈ s.cards, c.id < s.nextId

/-! ## Bearer-token gate (`Exp-16.js`) -/

/-- What the middleware does with a request: hand it on, or answer it. -/
inductive AuthResult where
  | next
  | respond (status : Nat) (message : String)
  deriving DecidableEq

/-- Method `String.prototype.startsWith`. The searched text is ASCII, so
matching code points and matching UTF-16 code units agree. -/
def startsWith (s pre : String) : Bool := pre.data.isPrefixOf s.data

/-- Splitting of a character sequence at every occurrence of `sep`. -/
def splitChars (sep : Char) : List Char → List (List Char)
  | [] => [[]]
  | c :: cs =>
    if c = sep then [] :: splitChars sep cs
    else
      match splitChars sep cs with
      | w :: ws => (c :: w) :: ws
      | [] => [[c]]

/-- Method `String.prototype.split` with a one-character separator. -/
def jsSplit (s : String) (sep : Char) : List String :=
  (splitChars sep s.data).map String.mk

/-- The `authMiddleware` function; the argument is `req.headers['authorization']`,
`none` when the header is not sent. -/
def authMiddleware (authHeader : Option String) : AuthResult :=
  let secretToken := "mysecrettoken"
  match authHeader with
  | some h =>
    if h ≠ "" ∧ startsWith h "Bearer " = true then
      let token := (jsSplit h ' ')[1]?
      if token = some secretToken then .next
      else .respond 401 "Authorization header missing or incorrect"
    else .respond 401 "Authorization header missing or incorrect"
  | none => .respond 401 "Authorization header missing or incorrect"

/-! ## Named constants and example environments -/

/-- A store all of whose calls throw: the unreachable-database situation. -/
def downStore : Store where
  find _ := .error ⟨"MongooseError", "buffering timed out"⟩
  findById _ := .error ⟨"MongooseError", "buffering timed out"⟩
  save _ := .error ⟨"MongooseError", "buffering timed out"⟩
  findByIdAndUpdate _ _ _ := .error ⟨"MongooseError", "buffering timed out"⟩
  findByIdAndDelete _ := .error ⟨"MongooseError", "buffering timed out"⟩

/-- A store that holds no document: every query succeeds and finds nothing. -/
def emptyStore : Store where
  find _ := .ok []
  findById _ := .ok none
  save _ := .error ⟨"ValidationError", "Product validation failed"⟩
  findByIdAndUpdate _ _ _ := .ok none
  findByIdAndDelete _ := .ok none

/-- The id is written as 24 hexadecimal digits, the form of the `_id` values
in `sampleProducts`. -/
def isObjectIdText (id : String) : Bool :=
  decide (id.data.length = 24) &&
    id.data.all fun c => c.isDigit || (decide ('a' ≤ c) && decide (c ≤ 'f')) ||
      (decide ('A' ≤ c) && decide (c ≤ 'F'))

/-- The error a store throws for an id it cannot cast. -/
def castError (id : String) : StoreError :=
  ⟨"CastError", "Cast to ObjectId failed for value \"" ++ id ++ "\" at path \"_id\""⟩

/-- A lookup by id in an empty collection: an id that cannot be cast throws,
any other id finds nothing. -/
def castId (id : String) : Outcome (Option Product) :=
  if isObjectIdText id = true then .ok none else .error (castError id)

/-- A store with an empty collection whose id lookups throw on an id that is
not in ObjectId form: the case the `catch` of `GET /products/:id` names
"Invalid product ID". -/
def castingStore : Store where
  find _ := .ok []
  findById id := castId id
  save _ := .error ⟨"ValidationError", "Product validation failed"⟩
  findByIdAndUpdate id _ _ := castId id
  findByIdAndDelete id := castId id

/-- A `coerce` that turns every string, array and object into NaN. -/
def coerceNaN : JsVal → JsNum := fun _ => .nan

/-- The message of the missing-field guard of `POST /products/:id/variants`. -/
def missingFieldMessage : String := "Color, size, and stock are required"

/-- The message of the name guard of `POST /products`. -/
def nameMessage : String := "Name is required and must be at least 2 characters"

/-- A `parseInt` for plain decimal digit strings (NaN on anything else),
enough to run examples. -/
def parseDigits (s : String) : Option Int :=
  if s.data ≠ [] ∧ s.data.all Char.isDigit = true then
    some ((s.data.foldl (fun n c => 10 * n + (c.toNat - 48)) 0 : Nat) : Int)
  else none

/-- The 401 answer of the gate. -/
def unauthorized : AuthResult := .respond 401 "Authorization header missing or incorrect"

/-! ## Theorems: catalog fallback (`GET /products`, by category, by colour) -/

theorem asciiLower_lowersAscii : LowersAscii asciiLower := fun _ _ => rfl

/-- The fallback filter keeps a sample product exactly when the predicate holds,
and keeps the sample order. -/
theorem filter_sample_spec (f : Product → Bool) :
    (sampleProducts.filter f).Sublist sampleProducts ∧
      ∀ p, p ∈ sampleProducts.filter f ↔ p ∈ sampleProducts ∧ f p = true :=
  ⟨List.filter_sublist _, fun _ => List.mem_filter⟩

/-- C1. `GET /products`: whenever `Product.find()` throws, whatever the error,
the handler answers 200 with exactly the four literal sample products, in the
documented order and with the documented fields; the error is not passed on. -/
theorem getProducts_fallback (st : Store) (e : StoreError)
    (hfail : st.find .all = .error e) :
    getProducts.run st = ⟨200, .products sampleProducts⟩ ∧
      sampleProducts.length = 4 ∧
      sampleProducts.map Product.view =
        [ ("Smartphone", 699, "Electronics", []),
          ("Running Shoes", 120, "Footwear", [("Red", "M", 10), ("Blue", "L", 5)]),
          ("Winter Jacket", 260, "Apparel", [("Black", "S", 8), ("Gray", "M", 12)]),
          ("Gaming Laptop", 1299, "Electronics",
            [("Black", "15-inch", 3), ("Silver", "17-inch", 7)]) ] := by
  refine ⟨?_, rfl, rfl⟩
  simp [getProducts, Handler.run, hfail, json]

theorem getProducts_fallback_witness :
    getProducts.run downStore = ⟨200, .products sampleProducts⟩ :=
  (getProducts_fallback downStore ⟨"MongooseError", "buffering timed out"⟩ rfl).1

/-- C2. `GET /products/category/:category` when the store query throws: for
every category string `c` the handler answers 200 with a sub-list of the sample
set (sample order kept) holding exactly the sample products whose category is
equal to `c` after lower-casing both; for `c = "electronics"` that is exactly
Smartphone followed by Gaming Laptop. -/
theorem getByCategory_fallback (toLowerCase : String → String) (st : Store)
    (e : StoreError) (c : String) (hfail : st.find (.category c) = .error e) :
    ∃ ps, (getByCategory toLowerCase c).run st = ⟨200, .products ps⟩ ∧
      ps.Sublist sampleProducts ∧
      (∀ p, p ∈ ps ↔ p ∈ sampleProducts ∧ toLowerCase p.category = toLowerCase c) ∧
      (LowersAscii toLowerCase → c = "electronics" →
        ps.map Product.view =
          [ ("Smartphone", 699, "Electronics", []),
            ("Gaming Laptop", 1299, "Electronics",
              [("Black", "15-inch", 3), ("Silver", "17-inch", 7)]) ]) := by
  refine ⟨sampleProducts.filter fun p =>
      decide (toLowerCase p.category = toLowerCase c), ?_, (filter_sample_spec _).1, ?_, ?_⟩
  · simp only [getByCategory, Handler.run, hfail, json]
  · intro p
    rw [(filter_sample_spec _).2 p]
    simp
  · intro hl hc
    subst hc
    have h1 : toLowerCase "Electronics" = "electronics" := hl _ (by decide)
    have h2 : toLowerCase "Footwear" = "footwear" := hl _ (by decide)
    have h3 : toLowerCase "Apparel" = "apparel" := hl _ (by decide)
    have h4 : toLowerCase "electronics" = "electronics" := hl _ (by decide)
    simp [sampleProducts, List.filter, h1, h2, h3, h4, Product.view, Variant.view]

theorem getByCategory_fallback_witness :
    ∃ ps, (getByCategory asciiLower "electronics").run downStore = ⟨200, .products ps⟩ ∧
      ps.map Product.view =
        [ ("Smartphone", 699, "Electronics", []),
          ("Gaming Laptop", 1299, "Electronics",
            [("Black", "15-inch", 3), ("Silver", "17-inch", 7)]) ] := by
  obtain ⟨ps, h1, _, _, h4⟩ :=
    getByCategory_fallback asciiLower downStore ⟨"MongooseError", "buffering timed out"⟩
      "electronics" rfl
  exact ⟨ps, h1, h4 asciiLower_lowersAscii rfl⟩

/-- C3. `GET /products/by-color/:color` when the store query throws: for every
colour string `c` the handler answers 200 with a sub-list of the sample set
(sample order kept) holding exactly the sample products that have at least one
variant whose colour is equal to `c` after lower-casing both, so a product
without variants is never returned; for `c = "blue"` the answer is exactly the
one product Running Shoes. -/
theorem getByColor_fallback (toLowerCase : String → String) (st : Store)
    (e : StoreError) (c : String) (hfail : st.find (.variantColor c) = .error e) :
    ∃ ps, (getByColor toLowerCase c).run st = ⟨200, .products ps⟩ ∧
      ps.Sublist sampleProducts ∧
      (∀ p, p ∈ ps ↔
        p ∈ sampleProducts ∧ ∃ v ∈ p.variants, toLowerCase v.color = toLowerCase c) ∧
      (∀ p ∈ ps, p.variants ≠ []) ∧
      (LowersAscii toLowerCase → c = "blue" →
        ps.map Product.view =
          [ ("Running Shoes", 120, "Footwear", [("Red", "M", 10), ("Blue", "L", 5)]) ]) := by
  have hmem : ∀ p, p ∈ sampleProducts.filter (fun p =>
        p.variants.any fun v => decide (toLowerCase v.color = toLowerCase c)) ↔
      p ∈ sampleProducts ∧ ∃ v ∈ p.variants, toLowerCase v.color = toLowerCase c := by
    intro p
    rw [(filter_sample_spec _).2 p]
    simp
  refine ⟨sampleProducts.filter fun p =>
      p.variants.any fun v => decide (toLowerCase v.color = toLowerCase c),
    ?_, (filter_sample_spec _).1, hmem, ?_, ?_⟩
  · simp only [getByColor, Handler.run, hfail, json]
  · intro p hp hnil
    obtain ⟨_, v, hv, _⟩ := (hmem p).1 hp
    rw [hnil] at hv
    exact absurd hv (List.not_mem_nil v)
  · intro hl hc
    subst hc
    have h1 : toLowerCase "Red" = "red" := hl _ (by decide)
    have h2 : toLowerCase "Blue" = "blue" := hl _ (by decide)
    have h3 : toLowerCase "Black" = "black" := hl _ (by decide)
    have h4 : toLowerCase "Gray" = "gray" := hl _ (by decide)
    have h5 : toLowerCase "Silver" = "silver" := hl _ (by decide)
    have h6 : toLowerCase "blue" = "blue" := hl _ (by decide)
    simp [sampleProducts, List.filter, h1, h2, h3, h4, h5, h6, Product.view, Variant.view]

theorem getByColor_fallback_witness :
    ∃ ps, (getByColor asciiLower "blue").run downStore = ⟨200, .products ps⟩ ∧
      ps.map Product.view =
        [ ("Running Shoes", 120, "Footwear", [("Red", "M", 10), ("Blue", "L", 5)]) ] := by
  obtain ⟨ps, h1, _, _, _, h5⟩ :=
    getByColor_fallback asciiLower downStore ⟨"MongooseError", "buffering timed out"⟩
      "blue" rfl
  exact ⟨ps, h1, h5 asciiLower_lowersAscii rfl⟩

/-! ## Theorems: validation guards of the write handlers -/

theorem getProp_of_not_hasProp (fs : List (String × JsVal)) (key : String)
    (h : hasProp fs key = false) : getProp fs key = .undefined := by
  induction fs with
  | nil => rfl
  | cons kv rest ih =>
    obtain ⟨k, v⟩ := kv
    simp only [hasProp, List.any_cons, Bool.or_eq_false_iff, decide_eq_false_iff_not] at h
    simp only [getProp, if_neg h.1]
    exact ih (by simpa [hasProp] using h.2)

/-- The guard of `postVariant` decides between the immediate 400 and the store call. -/
theorem postVariant_immediate (coerce : JsVal → JsNum) (id : String)
    (body : List (String × JsVal)) :
    (postVariant coerce id body).immediate =
      if !(getProp body "color").truthy || !(getProp body "size").truthy ||
          (getProp body "stock").isUndefined
      then some ⟨400, .error missingFieldMessage⟩ else none := by
  unfold postVariant
  simp only [missingFieldMessage]
  split <;> rfl

/-- C4, as stated, fails: a body in which color, size and stock are all present,
with color the empty string, is answered 400 with the missing-field message
before any store call. -/
theorem postVariant_empty_color_counterexample :
    hasProp [("color", .str ""), ("size", .str "M"), ("stock", .num (.ofNat 5))] "color" = true ∧
    hasProp [("color", .str ""), ("size", .str "M"), ("stock", .num (.ofNat 5))] "size" = true ∧
    hasProp [("color", .str ""), ("size", .str "M"), ("stock", .num (.ofNat 5))] "stock" = true ∧
    (postVariant coerceNaN "686f68ed2bf5384209b236af"
        [("color", .str ""), ("size", .str "M"), ("stock", .num (.ofNat 5))]).immediate =
      some ⟨400, .error "Color, size, and stock are required"⟩ := by
  refine ⟨by decide, by decide, by decide, ?_⟩
  rw [postVariant_immediate]
  rfl

/-- C4, amended. `POST /products/:id/variants` answers 400 with the
missing-field message, before any store call, if and only if color is falsy,
size is falsy, or stock is `undefined`. A field absent from the body is such a
case. Only for stock is the test absence rather than falsiness: with truthy
color and size a stock of 0 is not reported missing, while a color that is
present as the empty string is. -/
theorem postVariant_missing_iff (coerce : JsVal → JsNum) (id : String)
    (body : List (String × JsVal)) :
    ((postVariant coerce id body).immediate = some ⟨400, .error missingFieldMessage⟩ ↔
        (getProp body "color").truthy = false ∨ (getProp body "size").truthy = false ∨
          getProp body "stock" = .undefined) ∧
      ((hasProp body "color" = false ∨ hasProp body "size" = false ∨
          hasProp body "stock" = false) →
        (postVariant coerce id body).immediate = some ⟨400, .error missingFieldMessage⟩) ∧
      ((getProp body "color").truthy = true → (getProp body "size").truthy = true →
        getProp body "stock" = .num (.ofNat 0) →
        (postVariant coerce id body).immediate = none) ∧
      (getProp body "color" = .str "" →
        (postVariant coerce id body).immediate = some ⟨400, .error missingFieldMessage⟩) := by
  have hundef : ∀ v : JsVal, v.isUndefined = true ↔ v = .undefined := by
    intro v; cases v <;> simp [JsVal.isUndefined]
  have key : (postVariant coerce id body).immediate = some ⟨400, .error missingFieldMessage⟩ ↔
      (getProp body "color").truthy = false ∨ (getProp body "size").truthy = false ∨
        getProp body "stock" = .undefined := by
    rw [postVariant_immediate]
    by_cases hg : (!(getProp body "color").truthy || !(getProp body "size").truthy ||
        (getProp body "stock").isUndefined) = true
    · rw [if_pos hg]
      simp only [Bool.or_eq_true, Bool.not_eq_true', hundef] at hg
      simp only [true_iff]
      tauto
    · rw [if_neg hg]
      simp only [Bool.or_eq_true, Bool.not_eq_true', hundef] at hg
      simp only [reduceCtorEq, false_iff]
      tauto
  refine ⟨key, ?_, ?_, ?_⟩
  · intro h
    rw [key]
    rcases h with h | h | h
    · left; rw [getProp_of_not_hasProp _ _ h]; rfl
    · right; left; rw [getProp_of_not_hasProp _ _ h]; rfl
    · right; right; exact getProp_of_not_hasProp _ _ h
  · intro hc hs h0
    rw [postVariant_immediate, hc, hs, h0]
    rfl
  · intro hc
    rw [key, hc]
    left; rfl

theorem postVariant_missing_iff_witness :
    (postVariant coerceNaN "686f68ed2bf5384209b236af"
        [("color", .str "Green"), ("size", .str "M"), ("stock", .num (.ofNat 0))]).immediate =
      none ∧
    (postVariant coerceNaN "686f68ed2bf5384209b236af"
        [("color", .str "Green"), ("size", .str "M")]).immediate =
      some ⟨400, .error missingFieldMessage⟩ :=
  ⟨(postVariant_missing_iff coerceNaN "686f68ed2bf5384209b236af"
      [("color", .str "Green"), ("size", .str "M"), ("stock", .num (.ofNat 0))]).2.2.1
      (by decide) (by decide) rfl,
   (postVariant_missing_iff coerceNaN "686f68ed2bf5384209b236af"
      [("color", .str "Green"), ("size", .str "M")]).2.1 (Or.inr (Or.inr (by decide)))⟩

/-- C5. `POST /products/:id/variants` with a non-empty color, a non-empty size
and stock equal to the number 0 is not answered by the missing-field guard: the
handler issues `findByIdAndUpdate(id, $push variants (color, size, stock 0),
new: true)`, the store's append to the product's `variants`, and answers 200
with the updated product when the call resolves to a product and 404
"Product not found" when it resolves to null. -/
theorem postVariant_stock_zero (coerce : JsVal → JsNum) (id : String)
    (body : List (String × JsVal)) (c s : String)
    (hc : getProp body "color" = .str c) (hc0 : c ≠ "")
    (hs : getProp body "size" = .str s) (hs0 : s ≠ "")
    (hstock : getProp body "stock" = .num (.ofNat 0)) :
    (postVariant coerce id body).immediate = none ∧
      ∃ k, postVariant coerce id body =
          .findByIdAndUpdate id (.pushVariant (.str c) (.str s) (.ofNat 0)) ⟨true, false⟩ k ∧
        (∀ p, k (.ok (some p)) = ⟨200, .product p⟩) ∧
        k (.ok none) = ⟨404, .error "Product not found"⟩ := by
  have hguard : (!(getProp body "color").truthy || !(getProp body "size").truthy ||
      (getProp body "stock").isUndefined) = false := by
    rw [hc, hs, hstock]
    simp [JsVal.truthy, JsVal.isUndefined, hc0, hs0]
  refine ⟨?_, ?_⟩
  · rw [postVariant_immediate, hguard]
    rfl
  · unfold postVariant
    simp only [hguard, Bool.false_eq_true, if_false]
    rw [hc, hs, hstock]
    exact ⟨_, rfl, fun _ => rfl, rfl⟩

theorem postVariant_stock_zero_witness :
    (postVariant coerceNaN "686f68ed2bf5384209b236af"
        [("color", .str "Green"), ("size", .str "XL"), ("stock", .num (.ofNat 0))]).run
        emptyStore = ⟨404, .error "Product not found"⟩ := by
  obtain ⟨_, k, hk, _, h404⟩ :=
    postVariant_stock_zero coerceNaN "686f68ed2bf5384209b236af"
      [("color", .str "Green"), ("size", .str "XL"), ("stock", .num (.ofNat 0))]
      "Green" "XL" rfl (by decide) rfl (by decide) rfl
  rw [hk]
  exact h404

/-- The name guard of `postProduct` fires on an absent name and on a string
shorter than two UTF-16 code units. -/
theorem name_guard_fires (coerce : JsVal → JsNum) (name : JsVal)
    (h : name = .undefined ∨ ∃ s, name = .str s ∧ jsLength s < 2) :
    (!name.truthy || name.length.ltNum coerce 2) = true := by
  rcases h with h | ⟨s, h, hlen⟩
  · subst h; rfl
  · subst h
    have : ((jsLength s : ℕ) : ℚ) < 2 := by exact_mod_cast hlen
    simp [JsVal.length, JsVal.ltNum, JsVal.toNumber, JsNum.lt, JsNum.ofNat, this]

/-- The price guard of `postProduct` fires on an absent price and on every
number below 1. -/
theorem price_guard_fires (coerce : JsVal → JsNum) (price : JsVal)
    (h : price = .undefined ∨ price = .num .negInf ∨ ∃ q : ℚ, price = .num (.fin q) ∧ q < 1) :
    (!price.truthy || price.ltNum coerce 1) = true := by
  rcases h with h | h | ⟨q, h, hq⟩
  · subst h; rfl
  · subst h; rfl
  · subst h
    simp [JsVal.ltNum, JsVal.toNumber, JsNum.lt, JsNum.ofNat, hq]

/-- C6. `POST /products` with a name that is absent or a string shorter than 2
characters (counted as `.length` does, in UTF-16 code units), or with a price
that is absent or a number below 1, is answered 400 immediately, so `save` is
never called. When the name is the violation the message is the name message,
whatever the price and the category are: the name check comes first. -/
theorem postProduct_rejects (coerce : JsVal → JsNum) (body : List (String × JsVal))
    (h : (getProp body "name" = .undefined ∨
            ∃ s, getProp body "name" = .str s ∧ jsLength s < 2) ∨
         (getProp body "price" = .undefined ∨ getProp body "price" = .num .negInf ∨
            ∃ q : ℚ, getProp body "price" = .num (.fin q) ∧ q < 1)) :
    (∃ msg, postProduct coerce body = .respond ⟨400, .error msg⟩) ∧
      (postProduct coerce body).callsSave = false ∧
      ((getProp body "name" = .undefined ∨
            ∃ s, getProp body "name" = .str s ∧ jsLength s < 2) →
        postProduct coerce body = .respond ⟨400, .error nameMessage⟩) := by
  have hname : (getProp body "name" = .undefined ∨
      ∃ s, getProp body "name" = .str s ∧ jsLength s < 2) →
      postProduct coerce body = .respond ⟨400, .error nameMessage⟩ := by
    intro hn
    unfold postProduct
    simp only [name_guard_fires coerce _ hn, if_true, nameMessage]
  have hresp : ∃ msg, postProduct coerce body = .respond ⟨400, .error msg⟩ := by
    rcases h with hn | hp
    · exact ⟨_, hname hn⟩
    · by_cases hg : (!(getProp body "name").truthy ||
          (getProp body "name").length.ltNum coerce 2) = true
      · exact ⟨nameMessage, by unfold postProduct; simp only [hg, if_true, nameMessage]⟩
      · refine ⟨"Price must be at least 1", ?_⟩
        unfold postProduct
        simp only [hg, price_guard_fires coerce _ hp, if_true, if_false, Bool.false_eq_true]
  refine ⟨hresp, ?_, hname⟩
  obtain ⟨msg, hmsg⟩ := hresp
  rw [hmsg]
  rfl

theorem postProduct_rejects_witness :
    postProduct coerceNaN
        [("name", .str "A"), ("price", .num (.ofNat 10)), ("category", .str "Home")] =
      .respond ⟨400, .error nameMessage⟩ :=
  (postProduct_rejects coerceNaN
    [("name", .str "A"), ("price", .num (.ofNat 10)), ("category", .str "Home")]
    (Or.inl (Or.inr ⟨"A", rfl, by decide⟩))).2.2 (Or.inr ⟨"A", rfl, by decide⟩)

/-- The catch path of `PUT /products/:id`: when the update call throws (the
store rejects the id or the body, or cannot be reached), the answer is 400 with
the message of the error. -/
theorem putProduct_store_throws (st : Store) (id : String) (body : List (String × JsVal))
    (e : StoreError) (hthrow : st.findByIdAndUpdate id (.body body) ⟨true, true⟩ = .error e) :
    (putProduct id body).run st = ⟨400, .error e.message⟩ := by
  simp only [putProduct, Handler.run, hthrow]

/-- C7, as stated, fails: against a store with an empty collection the id
`not-an-object-id` resolves to no stored product, the update call throws the
cast error, and `PUT /products/not-an-object-id` is answered 400, not 404. -/
theorem putProduct_malformed_id_counterexample :
    castingStore.findByIdAndUpdate "not-an-object-id"
        (.body [("name", .str "Desk Lamp")]) ⟨true, true⟩ =
      .error (castError "not-an-object-id") ∧
    (putProduct "not-an-object-id" [("name", .str "Desk Lamp")]).run castingStore =
      ⟨400, .error (castError "not-an-object-id").message⟩ ∧
    ((putProduct "not-an-object-id" [("name", .str "Desk Lamp")]).run castingStore).status
      ≠ 404 := by
  have hthrow : castingStore.findByIdAndUpdate "not-an-object-id"
      (.body [("name", .str "Desk Lamp")]) ⟨true, true⟩ =
        .error (castError "not-an-object-id") := by
    simp only [castingStore, castId]
    rw [if_neg (by decide)]
  refine ⟨hthrow, putProduct_store_throws _ _ _ _ hthrow, ?_⟩
  rw [putProduct_store_throws _ _ _ _ hthrow]
  decide

/-- C7, amended. `PUT /products/:id` passes the id and the body to
`findByIdAndUpdate` with `new` and `runValidators` set, and its answer is fixed
by the outcome of that call alone: 200 with the document when the call resolves
to one, 404 "Product not found" when it resolves to null, 400 with the message
of the error when it throws. So the answer is 404, and not 400, exactly when the
call resolves to null, whatever the id string and the body; it is 400 exactly
when the call throws. -/
theorem putProduct_answer (st : Store) (id : String) (body : List (String × JsVal)) :
    (putProduct id body).run st =
        (match st.findByIdAndUpdate id (.body body) ⟨true, true⟩ with
          | .ok (some product) => ⟨200, .product product⟩
          | .ok none => ⟨404, .error "Product not found"⟩
          | .error err => ⟨400, .error err.message⟩) ∧
      (st.findByIdAndUpdate id (.body body) ⟨true, true⟩ = .ok none →
        (putProduct id body).run st = ⟨404, .error "Product not found"⟩ ∧
          ((putProduct id body).run st).status ≠ 400) ∧
      (((putProduct id body).run st).status = 404 ↔
        st.findByIdAndUpdate id (.body body) ⟨true, true⟩ = .ok none) ∧
      (((putProduct id body).run st).status = 400 ↔
        ∃ err, st.findByIdAndUpdate id (.body body) ⟨true, true⟩ = .error err) := by
  have hrun : (putProduct id body).run st =
      (match st.findByIdAndUpdate id (.body body) ⟨true, true⟩ with
        | .ok (some product) => ⟨200, .product product⟩
        | .ok none => ⟨404, .error "Product not found"⟩
        | .error err => ⟨400, .error err.message⟩) := by
    simp only [putProduct, Handler.run, json]
  refine ⟨hrun, ?_, ?_, ?_⟩
  · intro hnone
    rw [hrun, hnone]
    exact ⟨rfl, by decide⟩
  · rw [hrun]
    cases st.findByIdAndUpdate id (.body body) ⟨true, true⟩ with
    | error err => simp
    | ok found => cases found <;> simp
  · rw [hrun]
    cases st.findByIdAndUpdate id (.body body) ⟨true, true⟩ with
    | error err => simp
    | ok found => cases found <;> simp

theorem putProduct_answer_witness :
    (putProduct "686f63eb90ac2728b3f11082" [("name", .str "Desk Lamp")]).run castingStore =
        ⟨404, .error "Product not found"⟩ ∧
      ((putProduct "686f63eb90ac2728b3f11082" [("name", .str "Desk Lamp")]).run
        castingStore).status ≠ 400 :=
  (putProduct_answer castingStore "686f63eb90ac2728b3f11082" [("name", .str "Desk Lamp")]).2.1
    (by
      simp only [castingStore, castId]
      rw [if_pos (by decide)])

/-- C8. `GET /` always answers 200 with a summary object. Its `totalProducts`
is 4, the size of the sample set, when `Product.find()` throws or resolves to an
empty list, and the number of products found when it resolves to a non-empty
list. -/
theorem getRoot_totalProducts (st : Store) (readyState : Nat) :
    ∃ s, (getRoot readyState).run st = ⟨200, .summary s⟩ ∧
      s.totalProducts =
        (match st.find .all with
          | .ok found => if found = [] then 4 else found.length
          | .error _ => 4) := by
  refine ⟨_, rfl, ?_⟩
  cases hfind : st.find .all with
  | error e => simp [sampleProducts]
  | ok found =>
    cases found with
    | nil => simp [sampleProducts]
    | cons p ps => simp

/-! ## Theorems: card store -/

theorem findIndex_some_exists {α : Type} (p : α → Bool) :
    ∀ (l : List α) (i : Nat), findIndex p l = some i → ∃ a ∈ l, p a = true := by
  intro l
  induction l with
  | nil => intro i h; simp [findIndex] at h
  | cons a rest ih =>
    intro i h
    by_cases ha : p a = true
    · exact ⟨a, List.mem_cons_self _ _, ha⟩
    · simp only [findIndex, ha, Bool.false_eq_true, if_false, Option.map_eq_some'] at h
      obtain ⟨j, hj, _⟩ := h
      obtain ⟨b, hb, hpb⟩ := ih j hj
      exact ⟨b, List.mem_cons_of_mem _ hb, hpb⟩

theorem findIndex_of_exists {α : Type} (p : α → Bool) :
    ∀ (l : List α), (∃ a ∈ l, p a = true) → ∃ i, findIndex p l = some i := by
  intro l
  induction l with
  | nil => rintro ⟨a, ha, _⟩; cases ha
  | cons a rest ih =>
    rintro ⟨b, hb, hpb⟩
    by_cases ha : p a = true
    · exact ⟨0, by simp [findIndex, ha]⟩
    · rcases List.mem_cons.1 hb with rfl | hb
      · exact absurd hpb ha
      · obtain ⟨j, hj⟩ := ih ⟨b, hb, hpb⟩
        exact ⟨j + 1, by simp [findIndex, ha, hj]⟩

/-- Removing the first card with id `k` from a list of cards with distinct ids
leaves exactly the cards whose id is not `k`, in their order. -/
theorem eraseIdx_findIndex (k : Int) :
    ∀ (cs : List Card) (i : Nat), (cs.map Card.id).Nodup →
      findIndex (idMatches (some k)) cs = some i →
      cs.eraseIdx i = cs.filter fun c => decide ((c.id : Int) ≠ k) := by
  intro cs
  induction cs with
  | nil => intro i _ h; simp [findIndex] at h
  | cons c rest ih =>
    intro i hnd h
    rw [List.map_cons, List.nodup_cons] at hnd
    by_cases hc : (c.id : Int) = k
    · have hi : i = 0 := by
        simp only [findIndex, idMatches, hc, decide_True, if_true, Option.some.injEq] at h
        exact h.symm
      subst hi
      have hrest : ∀ d ∈ rest, (d.id : Int) ≠ k := by
        intro d hd hdk
        apply hnd.1
        have : d.id = c.id := by exact_mod_cast hdk.trans hc.symm
        rw [← this]
        exact List.mem_map_of_mem _ hd
      rw [List.eraseIdx_cons_zero, List.filter_cons_of_neg (by simpa using hc)]
      symm
      rw [List.filter_eq_self]
      intro d hd
      simpa using hrest d hd
    · simp only [findIndex, idMatches, hc, decide_False, Bool.false_eq_true, if_false,
        Option.map_eq_some'] at h
      obtain ⟨j, hj, rfl⟩ := h
      rw [List.eraseIdx_cons_succ, List.filter_cons_of_pos (by simpa using hc)]
      rw [ih j hnd.2 (by simpa [idMatches] using hj)]

theorem cardInv_initial : CardInv initialCards := by
  refine ⟨by decide, ?_⟩
  intro c hc
  simp only [initialCards, List.mem_cons, List.mem_singleton, List.not_mem_nil, or_false] at hc
  rcases hc with rfl | rfl | rfl <;> decide

theorem cardStep_inv (parseInt : String → Option Int) (s : CardState) (r : CardRequest)
    (h : CardInv s) : CardInv (cardStep parseInt s r).1 := by
  cases r with
  | list => exact h
  | get idParam =>
    simp only [cardStep, getCard]
    split <;> exact h
  | post body =>
    simp only [cardStep, postCard]
    split
    · exact h
    · refine ⟨?_, ?_⟩
      · simp only [List.map_append, List.map_cons, List.map_nil]
        rw [List.nodup_append]
        refine ⟨h.1, List.nodup_singleton _, ?_⟩
        intro a ha hb
        rw [List.mem_singleton] at hb
        obtain ⟨c, hc, rfl⟩ := List.mem_map.1 ha
        exact absurd hb (Nat.ne_of_lt (h.2 c hc))
      · intro c hc
        rcases List.mem_append.1 hc with hc | hc
        · exact Nat.lt_succ_of_lt (h.2 c hc)
        · rw [List.mem_singleton] at hc
          subst hc
          exact Nat.lt_succ_self _
  | delete idParam =>
    simp only [cardStep, deleteCard]
    split
    · refine ⟨?_, ?_⟩
      · exact List.Nodup.sublist ((List.eraseIdx_sublist _ _).map _) h.1
      · intro c hc
        exact h.2 c (List.mem_of_mem_eraseIdx hc)
    · exact h

theorem cardStep_nextId_le (parseInt : String → Option Int) (s : CardState)
    (r : CardRequest) : s.nextId ≤ (cardStep parseInt s r).1.nextId := by
  cases r with
  | list => exact Nat.le_refl _
  | get idParam =>
    simp only [cardStep, getCard]
    split <;> exact Nat.le_refl _
  | post body =>
    simp only [cardStep, postCard]
    split
    · exact Nat.le_refl _
    · exact Nat.le_succ _
  | delete idParam =>
    simp only [cardStep, deleteCard]
    split <;> exact Nat.le_refl _

theorem foldl_cardStep_inv (parseInt : String → Option Int) (reqs : List CardRequest) :
    ∀ s, CardInv s → CardInv (reqs.foldl (fun s r => (cardStep parseInt s r).1) s) := by
  induction reqs with
  | nil => intro s h; exact h
  | cons r rest ih => intro s h; exact ih _ (cardStep_inv parseInt s r h)

theorem foldl_cardStep_nextId_le (parseInt : String → Option Int)
    (reqs : List CardRequest) :
    ∀ s, s.nextId ≤ (reqs.foldl (fun s r => (cardStep parseInt s r).1) s).nextId := by
  induction reqs with
  | nil => intro s; exact Nat.le_refl _
  | cons r rest ih =>
    intro s
    exact Nat.le_trans (cardStep_nextId_le parseInt s r) (ih _)

theorem runCards_inv (parseInt : String → Option Int) (reqs : List CardRequest) :
    CardInv (runCards parseInt reqs) :=
  foldl_cardStep_inv parseInt reqs _ cardInv_initial

/-- Ids held at any earlier point of a run are below the current `nextId`. -/
theorem runCards_take_lt (parseInt : String → Option Int) (reqs : List CardRequest)
    (n : Nat) (c : Card) (hc : c ∈ (runCards parseInt (reqs.take n)).cards) :
    c.id < (runCards parseInt reqs).nextId := by
  have hlt := (runCards_inv parseInt (reqs.take n)).2 c hc
  have hle : (runCards parseInt (reqs.take n)).nextId ≤ (runCards parseInt reqs).nextId := by
    have := foldl_cardStep_nextId_le parseInt (reqs.drop n) (runCards parseInt (reqs.take n))
    simpa only [runCards, ← List.foldl_append, List.take_append_drop] using this
  exact Nat.lt_of_lt_of_le hlt hle

/-- C9. Card store. In every state reached from the initial state (ids 1, 2, 3,
`nextId` 4) by any sequence of requests, the card ids are pairwise distinct and
all strictly below `nextId`. Hence in such a state: a POST with truthy suit and
value answers 201, appends one card, and that card's id occurs in no state the
run went through; a POST whose body lacks suit or value answers 400 and leaves
`cards` and `nextId` as they were; a DELETE whose id, read by `parseInt`, is the
id `k` of a held card answers 200, leaves no card with id `k`, and keeps all
other cards in their order. -/
theorem cardStore_invariant (parseInt : String → Option Int) (reqs : List CardRequest) :
    ((runCards parseInt reqs).cards.map Card.id).Nodup ∧
    (∀ c ∈ (runCards parseInt reqs).cards, c.id < (runCards parseInt reqs).nextId) ∧
    (∀ body, (getProp body "suit").truthy = true → (getProp body "value").truthy = true →
      ((cardStep parseInt (runCards parseInt reqs) (.post body)).1.cards =
          (runCards parseInt reqs).cards ++
            [⟨(runCards parseInt reqs).nextId, getProp body "suit", getProp body "value"⟩] ∧
        (cardStep parseInt (runCards parseInt reqs) (.post body)).1.nextId =
          (runCards parseInt reqs).nextId + 1 ∧
        (cardStep parseInt (runCards parseInt reqs) (.post body)).2.status = 201 ∧
        ∀ n, ∀ c ∈ (runCards parseInt (reqs.take n)).cards,
          c.id ≠ (runCards parseInt reqs).nextId)) ∧
    (∀ body, hasProp body "suit" = false ∨ hasProp body "value" = false →
      ((cardStep parseInt (runCards parseInt reqs) (.post body)).1.cards =
          (runCards parseInt reqs).cards ∧
        (cardStep parseInt (runCards parseInt reqs) (.post body)).1.nextId =
          (runCards parseInt reqs).nextId ∧
        (cardStep parseInt (runCards parseInt reqs) (.post body)).2.status = 400)) ∧
    (∀ idParam k, parseInt idParam = some k →
      (∃ c ∈ (runCards parseInt reqs).cards, (c.id : Int) = k) →
      ((cardStep parseInt (runCards parseInt reqs) (.delete idParam)).2.status = 200 ∧
        (∀ c ∈ (cardStep parseInt (runCards parseInt reqs) (.delete idParam)).1.cards,
          (c.id : Int) ≠ k) ∧
        (cardStep parseInt (runCards parseInt reqs) (.delete idParam)).1.cards =
          (runCards parseInt reqs).cards.filter (fun c => decide ((c.id : Int) ≠ k)) ∧
        (cardStep parseInt (runCards parseInt reqs) (.delete idParam)).1.nextId =
          (runCards parseInt reqs).nextId)) := by
  have hinv := runCards_inv parseInt reqs
  refine ⟨hinv.1, hinv.2, ?_, ?_, ?_⟩
  · intro body hs hv
    have hg : (!(getProp body "suit").truthy || !(getProp body "value").truthy) = false := by
      simp [hs, hv]
    refine ⟨?_, ?_, ?_, ?_⟩
    · simp only [cardStep, postCard, hg, Bool.false_eq_true, if_false]
    · simp only [cardStep, postCard, hg, Bool.false_eq_true, if_false]
    · simp only [cardStep, postCard, hg, Bool.false_eq_true, if_false]
    · intro n c hc
      exact Nat.ne_of_lt (runCards_take_lt parseInt reqs n c hc)
  · intro body h
    have hg : (!(getProp body "suit").truthy || !(getProp body "value").truthy) = true := by
      rcases h with h | h
      · rw [getProp_of_not_hasProp _ _ h]; rfl
      · rw [getProp_of_not_hasProp _ _ h]; simp [JsVal.truthy]
    simp only [cardStep, postCard, hg, if_true, and_self]
  · intro idParam k hk hex
    obtain ⟨c, hc, hck⟩ := hex
    obtain ⟨i, hi⟩ := findIndex_of_exists (idMatches (some k)) _
      ⟨c, hc, by simp [idMatches, hck]⟩
    have hcards : (cardStep parseInt (runCards parseInt reqs) (.delete idParam)).1.cards =
        (runCards parseInt reqs).cards.filter (fun c => decide ((c.id : Int) ≠ k)) := by
      simp only [cardStep, deleteCard, hk, hi]
      exact eraseIdx_findIndex k _ i hinv.1 hi
    refine ⟨?_, ?_, hcards, ?_⟩
    · simp only [cardStep, deleteCard, hk, hi]
    · intro d hd
      rw [hcards, List.mem_filter] at hd
      simpa using hd.2
    · simp only [cardStep, deleteCard, hk, hi]

theorem cardStore_invariant_witness :
    (cardStep parseDigits
        (runCards parseDigits [.post [("suit", .str "Clubs"), ("value", .str "Ten")],
          .delete "2"]) (.delete "4")).1.cards =
      (runCards parseDigits [.post [("suit", .str "Clubs"), ("value", .str "Ten")],
          .delete "2"]).cards.filter (fun c => decide ((c.id : Int) ≠ 4)) :=
  ((cardStore_invariant parseDigits
      [.post [("suit", .str "Clubs"), ("value", .str "Ten")], .delete "2"]).2.2.2.2
    "4" 4 (by decide) ⟨⟨4, .str "Clubs", .str "Ten"⟩, by
      simp [runCards, cardStep, postCard, deleteCard, initialCards, getProp, JsVal.truthy,
        parseDigits, findIndex, idMatches], rfl⟩).2.2.1

/-! ## Theorems: bearer-token gate -/

theorem splitChars_sep (sep : Char) (cs : List Char) :
    splitChars sep (sep :: cs) = [] :: splitChars sep cs := by
  simp [splitChars]

theorem splitChars_ne (sep c : Char) (cs : List Char) (h : c ≠ sep) :
    splitChars sep (c :: cs) =
      (c :: (splitChars sep cs).headD []) :: (splitChars sep cs).tail := by
  simp only [splitChars, if_neg h]
  cases splitChars sep cs <;> rfl

/-- The first field of a split is `tok` exactly when the text is `tok` or
`tok`, the separator, and anything. -/
theorem splitChars_headD_eq (sep : Char) :
    ∀ (tok l : List Char), sep ∉ tok →
      ((splitChars sep l).headD [] = tok ↔ l = tok ∨ ∃ rest, l = tok ++ sep :: rest) := by
  intro tok l
  induction l generalizing tok with
  | nil =>
    intro _
    simp only [splitChars, List.headD_cons]
    constructor
    · intro h; exact Or.inl h
    · rintro (h | ⟨rest, h⟩)
      · exact h
      · cases tok <;> simp at h
  | cons c cs ih =>
    intro hsep
    by_cases hc : c = sep
    · subst hc
      rw [splitChars_sep, List.headD_cons]
      constructor
      · intro h; subst h; exact Or.inr ⟨cs, rfl⟩
      · rintro (h | ⟨rest, h⟩)
        · subst h; exact absurd (List.mem_cons_self _ _) hsep
        · cases tok with
          | nil => rfl
          | cons t ts =>
            simp only [List.cons_append, List.cons.injEq] at h
            exact absurd (h.1 ▸ List.mem_cons_self _ _) hsep
    · rw [splitChars_ne sep c cs hc, List.headD_cons]
      cases tok with
      | nil =>
        constructor
        · intro h; cases h
        · rintro (h | ⟨rest, h⟩)
          · cases h
          · simp only [List.nil_append, List.cons.injEq] at h
            exact absurd h.1 hc
      | cons t ts =>
        have hts : sep ∉ ts := fun hm => hsep (List.mem_cons_of_mem _ hm)
        simp only [List.cons.injEq, List.cons_append]
        rw [ih ts hts]
        constructor
        · rintro ⟨rfl, h | ⟨rest, h⟩⟩
          · exact Or.inl ⟨rfl, h⟩
          · exact Or.inr ⟨rest, rfl, h⟩
        · rintro (⟨rfl, h⟩ | ⟨rest, rfl, h⟩)
          · exact ⟨rfl, Or.inl h⟩
          · exact ⟨rfl, Or.inr ⟨rest, h⟩⟩

theorem splitChars_ne_nil (sep : Char) (l : List Char) : splitChars sep l ≠ [] := by
  cases l with
  | nil => simp [splitChars]
  | cons c cs =>
    by_cases hc : c = sep
    · subst hc; rw [splitChars_sep]; simp
    · rw [splitChars_ne sep c cs hc]; simp

/-- After the scheme `Bearer` and one space, the second field of the split is
the first field of what follows. -/
theorem splitChars_bearer (tail : List Char) :
    (splitChars ' ' ('B' :: 'e' :: 'a' :: 'r' :: 'e' :: 'r' :: ' ' :: tail))[1]? =
      some ((splitChars ' ' tail).headD []) := by
  rw [splitChars_ne _ _ _ (by decide), splitChars_ne _ _ _ (by decide),
    splitChars_ne _ _ _ (by decide), splitChars_ne _ _ _ (by decide),
    splitChars_ne _ _ _ (by decide), splitChars_ne _ _ _ (by decide), splitChars_sep]
  cases h : splitChars ' ' tail with
  | nil => exact absurd h (splitChars_ne_nil _ _)
  | cons w ws => simp

/-- The gate, on a header that is sent, in terms of the characters after `Bearer `. -/
theorem authMiddleware_some (h : String) :
    authMiddleware (some h) = .next ↔
      ∃ tail, h.data = "Bearer ".data ++ tail ∧
        (splitChars ' ' tail).headD [] = "mysecrettoken".data := by
  have hpre : startsWith h "Bearer " = true ↔ ∃ tail, h.data = "Bearer ".data ++ tail := by
    simp only [startsWith, List.isPrefixOf_iff_prefix]
    constructor
    · rintro ⟨t, ht⟩; exact ⟨t, ht.symm⟩
    · rintro ⟨t, ht⟩; exact ⟨t, ht.symm⟩
  constructor
  · intro hn
    simp only [authMiddleware] at hn
    split at hn
    · rename_i hcond
      obtain ⟨tail, ht⟩ := hpre.1 hcond.2
      refine ⟨tail, ht, ?_⟩
      split at hn
      · rename_i htok
        have hd : "Bearer ".data = 'B' :: 'e' :: 'a' :: 'r' :: 'e' :: 'r' :: ' ' :: [] := rfl
        simp only [jsSplit, ht, hd, List.cons_append, List.nil_append, List.getElem?_map,
          splitChars_bearer, Option.map_some', Option.some.injEq] at htok
        exact congrArg String.data htok
      · cases hn
    · cases hn
  · rintro ⟨tail, ht, htok⟩
    have hne : h ≠ "" := by
      intro he
      rw [he] at ht
      have : ("" : String).data = [] := rfl
      rw [this] at ht
      have hd : "Bearer ".data = 'B' :: 'e' :: 'a' :: 'r' :: 'e' :: 'r' :: ' ' :: [] := rfl
      rw [hd] at ht
      cases ht
    have hcond : h ≠ "" ∧ startsWith h "Bearer " = true := ⟨hne, hpre.2 ⟨tail, ht⟩⟩
    have hd : "Bearer ".data = 'B' :: 'e' :: 'a' :: 'r' :: 'e' :: 'r' :: ' ' :: [] := rfl
    have hsplit : (jsSplit h ' ')[1]? = some "mysecrettoken" := by
      simp only [jsSplit, ht, hd, List.cons_append, List.nil_append, List.getElem?_map,
        splitChars_bearer, Option.map_some', Option.some.injEq, htok]
    simp only [authMiddleware, hsplit, if_true]
    rw [if_pos hcond]

/-- The gate either hands the request on or answers 401, nothing else. -/
theorem authMiddleware_cases (authHeader : Option String) :
    authMiddleware authHeader = .next ∨ authMiddleware authHeader = unauthorized := by
  cases authHeader with
  | none => exact Or.inr rfl
  | some h =>
    simp only [authMiddleware, unauthorized]
    split
    · split
      · exact Or.inl rfl
      · exact Or.inr rfl
    · exact Or.inr rfl

/-- The gate accepts exactly the header `Bearer mysecrettoken` and the headers
that continue it with a space. -/
theorem authMiddleware_accepts (h : String) :
    authMiddleware (some h) = .next ↔
      h = "Bearer mysecrettoken" ∨ ∃ rest : String, h = "Bearer mysecrettoken " ++ rest := by
  rw [authMiddleware_some]
  constructor
  · rintro ⟨tail, ht, htok⟩
    rcases (splitChars_headD_eq ' ' "mysecrettoken".data tail (by decide)).1 htok with
      hx | ⟨rest, hx⟩
    · left
      apply String.ext
      rw [ht, hx]
      rfl
    · right
      refine ⟨⟨rest⟩, ?_⟩
      apply String.ext
      rw [ht, hx, String.data_append]
      rfl
  · rintro (hx | ⟨rest, hx⟩)
    · subst hx
      exact ⟨"mysecrettoken".data, rfl, by decide⟩
    · subst hx
      refine ⟨"mysecrettoken".data ++ ' ' :: rest.data, ?_, ?_⟩
      · rw [String.data_append]; rfl
      · exact (splitChars_headD_eq ' ' "mysecrettoken".data _ (by decide)).2
          (Or.inr ⟨rest.data, rfl⟩)

/-- C10. Bearer-token gate. The middleware calls `next()` if and only if the
Authorization header is present, starts with `Bearer ` and the second
space-separated field of the header is exactly `mysecrettoken`; otherwise it
answers 401 with the message "Authorization header missing or incorrect" and
does not call `next()`. Equivalently, the accepted headers are
`Bearer mysecrettoken` and that text followed by a space and anything. So
`Bearer mysecrettoken` plus a space and any text is accepted; a header with a
second space right after `Bearer `, the scheme `bearer` in lower case, and a
missing header are rejected. -/
theorem authMiddleware_gate (authHeader : Option String) :
    (authMiddleware authHeader = .next ↔
      ∃ h, authHeader = some h ∧ startsWith h "Bearer " = true ∧
        (jsSplit h ' ')[1]? = some "mysecrettoken") ∧
    (authMiddleware authHeader ≠ .next →
      authMiddleware authHeader =
        .respond 401 "Authorization header missing or incorrect") ∧
    (authMiddleware authHeader = .next ↔
      ∃ h, authHeader = some h ∧
        (h = "Bearer mysecrettoken" ∨ ∃ rest : String, h = "Bearer mysecrettoken " ++ rest)) ∧
    (∀ rest : String, authMiddleware (some ("Bearer mysecrettoken " ++ rest)) = .next) ∧
    (∀ rest : String, authMiddleware (some ("Bearer  " ++ rest)) =
        .respond 401 "Authorization header missing or incorrect") ∧
    authMiddleware (some "bearer mysecrettoken") =
        .respond 401 "Authorization header missing or incorrect" ∧
    authMiddleware none = .respond 401 "Authorization header missing or incorrect" := by
  refine ⟨?_, ?_, ?_, ?_, ?_, by decide, rfl⟩
  · cases authHeader with
    | none =>
      constructor
      · intro h; cases h
      · rintro ⟨h, hh, _⟩; cases hh
    | some h =>
      constructor
      · intro hn
        refine ⟨h, rfl, ?_⟩
        simp only [authMiddleware] at hn
        split at hn
        · rename_i hcond
          refine ⟨hcond.2, ?_⟩
          split at hn
          · rename_i htok; exact htok
          · cases hn
        · cases hn
      · rintro ⟨h', hh, hpre, htok⟩
        cases hh
        have hne : h ≠ "" := by
          intro he
          subst he
          revert hpre
          decide
        simp only [authMiddleware, htok, if_true]
        rw [if_pos ⟨hne, hpre⟩]
  · intro hn
    rcases authMiddleware_cases authHeader with h | h
    · exact absurd h hn
    · exact h
  · cases authHeader with
    | none =>
      constructor
      · intro h; cases h
      · rintro ⟨h, hh, _⟩; cases hh
    | some h =>
      rw [authMiddleware_accepts]
      constructor
      · intro hx; exact ⟨h, rfl, hx⟩
      · rintro ⟨h', hh, hx⟩; cases hh; exact hx
  · intro rest
    exact (authMiddleware_accepts _).2 (Or.inr ⟨rest, rfl⟩)
  · intro rest
    rcases authMiddleware_cases (some ("Bearer  " ++ rest)) with h | h
    · exfalso
      obtain ⟨tail, ht, htok⟩ := (authMiddleware_some _).1 h
      rw [String.data_append] at ht
      have hd : "Bearer  ".data = "Bearer ".data ++ [' '] := rfl
      rw [hd, List.append_assoc] at ht
      have htail := List.append_cancel_left ht
      rw [← htail, List.singleton_append, splitChars_sep, List.headD_cons] at htok
      revert htok
      decide
    · exact h

theorem authMiddleware_gate_witness :
    authMiddleware (some "Basic dXNlcjpwYXNz") =
      .respond 401 "Authorization header missing or incorrect" :=
  (authMiddleware_gate (some "Basic dXNlcjpwYXNz")).2.1 (by decide)

end FullStack
